import Mathlib

/-!
Verification of the load stage (`src/etl/load.py`) of the ETL pipeline.

The Python values that flow through `load` are modelled by `PyVal`: a
scalar (`PyScalar`) or a flat numpy array of scalars (the arrays this
pipeline meets are one-dimensional).  pandas DataFrames are modelled by
`DF` (column list plus rows, a row being an association list from column
name to value); the remote store visible to the integrity checks by
`Store` (table name and column name to the list of values present in that
column).  Finite floats are modelled by rationals; `NaN`, `+inf` and
`-inf` are separate constructors, so no floating-point arithmetic is
involved — the sanitizer only classifies values.
-/

namespace EtlLoad

inductive PyScalar where
  | sNone
  | sNaN
  | sInf
  | sNegInf
  | sFloat (q : ℚ)
  | sInt (n : ℤ)
  | sBool (b : Bool)
  | sStr (s : String)
  | sDatetime (iso : String)
  | sDecimal (q : ℚ)
  deriving DecidableEq

inductive PyVal where
  | scalar (s : PyScalar)
  | vArr (elems : List PyScalar)
  deriving DecidableEq

namespace PyVal

/-- The Python `None` value. -/
abbrev vNone : PyVal := .scalar .sNone
/-- The value `float('nan')` (or a pandas `NaN` cell). -/
abbrev vNaN : PyVal := .scalar .sNaN
/-- The value `float('inf')`. -/
abbrev vInf : PyVal := .scalar .sInf
/-- The value `float('-inf')`. -/
abbrev vNegInf : PyVal := .scalar .sNegInf
/-- A finite float. -/
abbrev vFloat (q : ℚ) : PyVal := .scalar (.sFloat q)
/-- An int. -/
abbrev vInt (n : ℤ) : PyVal := .scalar (.sInt n)
/-- A bool. -/
abbrev vBool (b : Bool) : PyVal := .scalar (.sBool b)
/-- A str. -/
abbrev vStr (s : String) : PyVal := .scalar (.sStr s)

end PyVal

/-- A record/row: the association list produced by `df.to_dict(orient="records")`. -/
abbrev Row := List (String × PyVal)

/-- A DataFrame: its column list together with its rows. -/
structure DF where
  columns : List String
  rows : List Row
  deriving DecidableEq

/-- The remote store as seen by the integrity checks: for a table name and a
column name, the list of values present in that column (`select(col)` rows). -/
abbrev Store := String → String → List PyVal

/-- Cell access `row[col]`: a pandas frame fills absent cells with `NaN`,
so a key missing from the association list reads as `vNaN`. -/
def getCol (r : Row) (c : String) : PyVal := (r.lookup c).getD .vNaN

/-- Test `pd.isna` on a scalar: `None` and `NaN` are NA. -/
def scalarIsNA : PyScalar → Bool
  | .sNone => true
  | .sNaN => true
  | _ => false

/-- Test `pd.isna(v)` as used at the head of `_sanitize_value` (line 205) and in
the required-column mask (line 139).  On a one-element ndarray the Python
truth test `if pd.isna(v):` coerces the one-element boolean array to its
element; on any other ndarray it raises `ValueError`, which the `except`
at line 207 turns into taking the `False` path. -/
def pyIsNA : PyVal → Bool
  | .scalar s => scalarIsNA s
  | .vArr [x] => scalarIsNA x
  | .vArr _ => false

/-- The `v.item()` unwrap (lines 211-215): `ndarray.item()` succeeds exactly
on one-element arrays, returning the element; on anything else it raises and
the value is left unchanged.  numpy scalar wrappers are not distinguished
from their underlying primitives in this model, so on scalars the unwrap is
the identity. -/
def itemUnwrap : PyVal → PyVal
  | .vArr [x] => .scalar x
  | v => v

/-- Test `isinstance(v, (float, np.floating))` (line 222): `nan`/`inf` are floats. -/
def isFloatLike : PyVal → Bool
  | .scalar (.sFloat _) => true
  | .scalar .sNaN => true
  | .scalar .sInf => true
  | .scalar .sNegInf => true
  | _ => false

/-- Test `isinstance(v, (int, np.integer))` (line 232): a Python `bool` is a
subclass of `int`, so booleans satisfy this test. -/
def isIntLike : PyVal → Bool
  | .scalar (.sInt _) => true
  | .scalar (.sBool _) => true
  | _ => false

/-- The float branch body (lines 223-229): keep a finite float, send a
non-finite float (`math.isfinite` is false) to `None`. -/
def floatBranch : PyVal → PyVal
  | .scalar (.sFloat q) => .scalar (.sFloat q)
  | _ => .vNone

/-- The int branch body (line 233): `int(v)`; `int(True) = 1`, `int(False) = 0`. -/
def intBranch : PyVal → PyVal
  | .scalar (.sInt n) => .scalar (.sInt n)
  | .scalar (.sBool b) => .scalar (.sInt (if b then 1 else 0))
  | v => v

/-- Function `_sanitize_value` (lines 202-253), with the branches in source order:
NA test, `.item()` unwrap, ndarray → `tolist()`, float, int, bool,
datetime → `isoformat()`, `Decimal` → `float`, otherwise pass through.
The bool branch (lines 236-237) is kept in source position although the
int test (line 232) already captures every boolean. -/
def sanitizeValue (v : PyVal) : PyVal :=
  if pyIsNA v then .vNone
  else
    let v := itemUnwrap v
    match v with
    | .vArr l => .vArr l
    | _ =>
      if isFloatLike v then floatBranch v
      else if isIntLike v then intBranch v
      else
        match v with
        | .scalar (.sBool b) => .scalar (.sBool b)
        | .scalar (.sDatetime iso) => .scalar (.sStr iso)
        | .scalar (.sDecimal q) => .scalar (.sFloat q)
        | w => w

/-- Sanitizing one record (line 257 / line 338). -/
def sanitizeRow (r : Row) : Row := r.map (fun p => (p.1, sanitizeValue p.2))

/-- The element list of an array value (empty for non-arrays). -/
def arrElems : PyVal → List PyScalar
  | .vArr l => l
  | _ => []

/-- The scalar carried by a value (scalar of its sanitized form, used to
state what "a sequence of sanitized elements" would be). -/
def asScalar : PyVal → PyScalar
  | .scalar s => s
  | .vArr _ => .sNone

/-! Batching (lines 259-260 and 304-322) and chunked reads (lines 65-68) -/

/-- Constant `BATCH_SIZE` (line 260). -/
def BATCH_SIZE : ℕ := 100

/-- Constant `MAX_RETRIES` (line 261). -/
def MAX_RETRIES : ℕ := 3

/-- Constant `RETRY_DELAY_BASE` (line 262), seconds. -/
def RETRY_DELAY_BASE : ℕ := 2

/-- Constant `CHUNK_SIZE` (line 65), the read-side `IN` chunk size. -/
def CHUNK_SIZE : ℕ := 500

/-- Fuel-driven slicing; the fuel (initially the list length) bounds the
number of loop iterations so the recursion is structural. -/
def sliceChunksAux (sz : ℕ) : ℕ → List α → List (List α)
  | _, [] => []
  | 0, _ :: _ => []
  | fuel + 1, x :: xs => ((x :: xs).take sz) :: sliceChunksAux sz fuel (xs.drop (sz - 1))

/-- The slicing loop `for i in range(0, total, sz): l[i:i+sz]`
(lines 311-312 with `sz = BATCH_SIZE`, lines 67-68 with `sz = CHUNK_SIZE`):
contiguous slices of at most `sz` elements, in order. -/
def sliceChunks (sz : ℕ) (l : List α) : List (List α) := sliceChunksAux sz l.length l

/-! Transient-error classification and retry (lines 264-302) -/

/-- Substring test `pat in hay` on character lists. -/
def charsStartWith : List Char → List Char → Bool
  | _, [] => true
  | [], _ :: _ => false
  | h :: t, p :: ps => h == p && charsStartWith t ps

/-- Substring occurrence test on character lists. -/
def charsContain : List Char → List Char → Bool
  | [], pat => pat.isEmpty
  | hay@(_ :: t), pat => charsStartWith hay pat || charsContain t pat

/-- Python `pat in s` for strings. -/
def strContains (s pat : String) : Bool := charsContain s.data pat.data

/-- Lowering `str(error).lower()` (line 266). -/
def lowerStr (s : String) : String := ⟨s.data.map Char.toLower⟩

/-- The transient signatures of `_is_transient_error` (lines 268-275). -/
def transientPatterns : List String :=
  ["network connection lost", "gateway error", "timeout", "502", "503", "504",
   "connection reset", "temporarily unavailable"]

/-- Function `_is_transient_error` (lines 264-276): the lowered message contains one
of the known network/gateway signatures. -/
def isTransientError (msg : String) : Bool :=
  transientPatterns.any (fun pattern => strContains (lowerStr msg) pattern)

/-- What one write attempt does: the store call either returns or raises
with a message. -/
inductive AttemptOutcome where
  | success
  | failure (msg : String)
  deriving DecidableEq

/-- Observable behaviour of `_execute_with_retry` on one batch: whether the
batch ultimately succeeded, the backoff sleeps performed (in order, in
seconds), how many attempts were made, and the re-raised message if any. -/
structure RetryResult where
  ok : Bool
  sleeps : List ℕ
  attempts : ℕ
  raised : Option String
  deriving DecidableEq

/-- The `for attempt in range(MAX_RETRIES)` body of `_execute_with_retry`
(lines 280-302), over the remaining attempt indices: on success return
`True`; on a transient error with attempts remaining sleep
`RETRY_DELAY_BASE ** (attempt + 1)` and continue; on a transient error on
the last attempt, or any permanent error, re-raise. -/
def retryGo (exec : ℕ → AttemptOutcome) : List ℕ → RetryResult
  | [] => { ok := false, sleeps := [], attempts := 0, raised := none }
  | attempt :: rest =>
    match exec attempt with
    | .success => { ok := true, sleeps := [], attempts := 1, raised := none }
    | .failure msg =>
      if isTransientError msg then
        if rest.isEmpty then
          { ok := false, sleeps := [], attempts := 1, raised := some msg }
        else
          let r := retryGo exec rest
          { ok := r.ok, sleeps := RETRY_DELAY_BASE ^ (attempt + 1) :: r.sleeps,
            attempts := r.attempts + 1, raised := r.raised }
      else { ok := false, sleeps := [], attempts := 1, raised := some msg }

/-- Function `_execute_with_retry` (lines 278-302), abstracted over what the store
does on the n-th attempt. -/
def executeWithRetry (exec : ℕ → AttemptOutcome) : RetryResult :=
  retryGo exec (List.range MAX_RETRIES)

/-! The integrity checks of `load` (lines 39-200) -/

/-- Helper for `Series.unique().tolist()`: distinct values in first-appearance order
(structural recursion with a "seen" accumulator). -/
def uniqueFirstAux (seen : List PyVal) : List PyVal → List PyVal
  | [] => []
  | x :: xs => if x ∈ seen then uniqueFirstAux seen xs else x :: uniqueFirstAux (x :: seen) xs

/-- Distinct values in first-appearance order. -/
def uniqueFirst (l : List PyVal) : List PyVal := uniqueFirstAux [] l

/-- The value column `df[c]`. -/
def pkVals (rows : List Row) (c : String) : List PyVal := rows.map (fun r => getCol r c)

/-- Expression `df[c].dropna().unique().tolist()` (lines 60, 90, 159): the distinct
non-NA values of a column, in order. -/
def uniqueNonNull (rows : List Row) (c : String) : List PyVal :=
  uniqueFirst ((pkVals rows c).filter (fun v => !pyIsNA v))

/-- The colliding values `df.loc[df.duplicated(subset=[pk], keep=False), pk]
.unique().tolist()` (lines 50-52): distinct values occurring at least twice
in the column (pandas treats NA cells as equal to each other here). -/
def dupValues (rows : List Row) (pk : String) : List PyVal :=
  uniqueFirst ((pkVals rows pk).filter (fun v => 2 ≤ (pkVals rows pk).count v))

/-- Call `df.drop_duplicates(subset=[pk], keep="last")` (line 55): keep a row
exactly when no later row carries the same key value, preserving order. -/
def dropDupKeepLast (pk : String) : List Row → List Row
  | [] => []
  | r :: rest =>
    if rest.any (fun r2 => getCol r2 pk == getCol r pk) then dropDupKeepLast pk rest
    else r :: dropDupKeepLast pk rest

/-- The chunked existence read (lines 64-76, 92-106, 162-177): split the
keys into `IN`-chunks of `CHUNK_SIZE`, run
`select(col).in_(col, chunk).execute()` per chunk and concatenate the
returned column values. -/
def chunkedSelect (store : Store) (table col : String) (keys : List PyVal) : List PyVal :=
  ((sliceChunks CHUNK_SIZE keys).map
    (fun chunk => (store table col).filter (fun v => v ∈ chunk))).flatten

/-- Table `REQUIRED_COLUMNS_BY_TABLE` (lines 33-37). -/
def REQUIRED_COLUMNS_BY_TABLE : List (String × List String) := [("pagos", ["fecha_pago"])]

/-- The keyword arguments of `load` (line 39) other than the table name and
the frame itself. -/
structure LoadArgs where
  tableName : String
  abortOnError : Bool := true
  pkColumn : Option String := none
  dedupeDf : Bool := true
  dropMissingStudents : Bool := false
  dropMissingMatriculas : Bool := false
  requiredColumns : Option (List String) := none
  upsert : Bool := false
  deriving DecidableEq

/-- A CSV written to the audit directory: the file-name tag (without the
timestamp) and the rows persisted. -/
structure AuditEntry where
  fileTag : String
  rows : List Row
  deriving DecidableEq

/-- The payloads of the `ValueError`s raised inside the `try` blocks and
caught by their own `except Exception` clauses (lines 83/84, 132/133,
196/197): existing-PK conflicts (line 83, carrying `total_dups`), missing
student references (line 132) and missing matricula references (line 196). -/
inductive CheckErr where
  | existingKeys (totalDups : ℕ)
  | missingStudents (vals : List PyVal)
  | missingMatriculas (vals : List PyVal)
  deriving DecidableEq

/-- The only error of the integrity phase that escapes `load` itself: the
duplicate-PK `ValueError` of line 58, raised outside any `try`. -/
inductive LoadErr where
  | duplicateKey (vals : List PyVal)
  deriving DecidableEq

deriving instance DecidableEq for Except

/-- Result of lines 39-257 of `load`: either the uncaught duplicate-key
error, or the sanitized records handed to the batch loop; plus the audit
CSVs written and the check errors swallowed by `except` clauses on the way. -/
structure IntegrityOut where
  result : Except LoadErr (List Row)
  audits : List AuditEntry
  warnings : List CheckErr
  deriving DecidableEq

/-- Pattern `try: body except Exception as e: logger.warning(...)`: on success keep
the body's frame and audit output; on an exception keep the frame as it was
when the `try` was entered and record the swallowed error. -/
def tryCheck (dfAtEntry : DF) (body : Except CheckErr (DF × Option AuditEntry)) :
    DF × List AuditEntry × List CheckErr :=
  match body with
  | .ok (df2, aud) => (df2, aud.toList, [])
  | .error e => (dfAtEntry, [], [e])

/-- The existing-PK check (lines 62-83): read which of the frame's key
values are already live in the target table; any match raises the
`ValueError` of line 83 (carrying the number of matches). -/
def existingPkBody (store : Store) (a : LoadArgs) (pk : String) (df : DF) :
    Except CheckErr (DF × Option AuditEntry) :=
  let keys := uniqueNonNull df.rows pk
  let existingVals := chunkedSelect store a.tableName pk keys
  if existingVals.isEmpty then .ok (df, none)
  else .error (.existingKeys existingVals.length)

/-- The `matriculas → estudiantes` foreign-key check (lines 88-132): only
for table `matriculas` with a `codigo_estudiante` column; referenced codes
absent from `estudiantes` either quarantine the affected rows to a CSV and
drop them (`drop_missing_students`) or raise the `ValueError` of line 132. -/
def matriculasFkBody (store : Store) (a : LoadArgs) (df : DF) :
    Except CheckErr (DF × Option AuditEntry) :=
  if a.tableName = "matriculas" ∧ "codigo_estudiante" ∈ df.columns then
    let studentKeys := uniqueNonNull df.rows "codigo_estudiante"
    let existing := chunkedSelect store "estudiantes" "codigo_estudiante" studentKeys
    let missing := studentKeys.filter (fun k => k ∉ existing)
    if missing.isEmpty then .ok (df, none)
    else if a.dropMissingStudents then
      let isBad := fun r => decide (getCol r "codigo_estudiante" ∈ missing)
      .ok ({ df with rows := df.rows.filter (fun r => !isBad r) },
           some { fileTag := "matriculas_missing_students", rows := df.rows.filter isBad })
    else .error (.missingStudents missing)
  else .ok (df, none)

/-- The `pagos → matriculas` foreign-key check (lines 157-196): only for
table `pagos` with a `codigo_matricula` column (run whether or not a PK was
given); referenced codes absent from `matriculas` either quarantine the
affected rows to a CSV and drop them (`drop_missing_matriculas`) or raise
the `ValueError` of line 196. -/
def pagosFkBody (store : Store) (a : LoadArgs) (df : DF) :
    Except CheckErr (DF × Option AuditEntry) :=
  if a.tableName = "pagos" ∧ "codigo_matricula" ∈ df.columns then
    let paymentKeys := uniqueNonNull df.rows "codigo_matricula"
    let existing := chunkedSelect store "matriculas" "codigo_matricula" paymentKeys
    let missing := paymentKeys.filter (fun k => k ∉ existing)
    if missing.isEmpty then .ok (df, none)
    else if a.dropMissingMatriculas then
      let isBad := fun r => decide (getCol r "codigo_matricula" ∈ missing)
      .ok ({ df with rows := df.rows.filter (fun r => !isBad r) },
           some { fileTag := "pagos_missing_matriculas", rows := df.rows.filter isBad })
    else .error (.missingMatriculas missing)
  else .ok (df, none)

/-- The required-column filter (lines 136-154): the declared required
columns (the call's override, else `REQUIRED_COLUMNS_BY_TABLE`); rows with
an NA in any of them are backed up to a CSV and removed. -/
def requiredStep (a : LoadArgs) (df : DF) : DF × Option AuditEntry :=
  let colsRequired :=
    match a.requiredColumns with
    | some cs => cs
    | none => (REQUIRED_COLUMNS_BY_TABLE.lookup a.tableName).getD []
  if colsRequired.isEmpty then (df, none)
  else
    let badMask := fun r => colsRequired.any (fun c => pyIsNA (getCol r c))
    let removed := df.rows.filter badMask
    if removed.isEmpty then (df, none)
    else ({ df with rows := df.rows.filter (fun r => !badMask r) },
          some { fileTag := a.tableName ++ "_removed_nulls", rows := removed })

/-- The two pk-guarded store checks that follow the in-frame duplicate
handling (lines 62-134), each wrapped in its own swallowing `try`. -/
def pkChecksAfterDup (store : Store) (a : LoadArgs) (pk : String) (df1 : DF) :
    DF × List AuditEntry × List CheckErr :=
  let (df2, auds2, warns2) := tryCheck df1 (existingPkBody store a pk df1)
  let (df3, auds3, warns3) := tryCheck df2 (matriculasFkBody store a df2)
  (df3, auds2 ++ auds3, warns2 ++ warns3)

/-- The unconditional tail of the integrity phase: required-column filter
(lines 136-154), then the `pagos` FK check in its swallowing `try`
(lines 156-198), then `to_dict` + sanitization (lines 200, 257). -/
def commonTail (store : Store) (a : LoadArgs) (df : DF)
    (auds : List AuditEntry) (warns : List CheckErr) : IntegrityOut :=
  let (df4, aud4) := requiredStep a df
  let (df5, auds5, warns5) := tryCheck df4 (pagosFkBody store a df4)
  { result := .ok (df5.rows.map sanitizeRow),
    audits := auds ++ aud4.toList ++ auds5,
    warnings := warns ++ warns5 }

/-- Lines 39-257 of `load`: everything before the batch loop.  With a PK
column present in the frame, first the in-frame duplicate handling
(lines 50-58: dedupe keeping the last row, or the uncaught `ValueError`),
then the existing-PK and `matriculas` FK checks; in every case the
required-column filter and the `pagos` FK check follow, and the surviving
rows are sanitized. -/
def integrityPhase (store : Store) (a : LoadArgs) (df0 : DF) : IntegrityOut :=
  match a.pkColumn with
  | none => commonTail store a df0 [] []
  | some pk =>
    if pk ∈ df0.columns then
      let dups := dupValues df0.rows pk
      if dups.isEmpty then
        let (df3, auds, warns) := pkChecksAfterDup store a pk df0
        commonTail store a df3 auds warns
      else if a.dedupeDf then
        let df1 : DF := { df0 with rows := dropDupKeepLast pk df0.rows }
        let (df3, auds, warns) := pkChecksAfterDup store a pk df1
        commonTail store a df3 auds warns
      else { result := .error (.duplicateKey dups), audits := [], warnings := [] }
    else commonTail store a df0 [] []

/-! The batch loop and the per-record fallback (lines 304-346) -/

/-- One write call against the store. -/
inductive WriteOp where
  | insertOp (table : String) (recs : List Row)
  | upsertOp (table : String) (recs : List Row)
  deriving DecidableEq

/-- The records carried by a write call. -/
def opRecords : WriteOp → List Row
  | .insertOp _ recs => recs
  | .upsertOp _ recs => recs

/-- Whether a write call is a plain insert. -/
def isInsertOp : WriteOp → Bool
  | .insertOp _ _ => true
  | .upsertOp _ _ => false

/-- The write calls of the batch loop (lines 311-318) when every batch
succeeds: the cleaned records in contiguous `BATCH_SIZE` slices, written
with `upsert` or `insert` according to the call's mode (line 317). -/
def batchWriteOps (table : String) (upsert : Bool) (cleaned : List Row) : List WriteOp :=
  (sliceChunks BATCH_SIZE cleaned).map
    (fun batch => if upsert then .upsertOp table batch else .insertOp table batch)

/-- The whole call, observed as: the integrity phase outcome and, when it
did not raise, the batch-loop write calls (reached only in the `.ok` case —
the line 58 `ValueError` aborts before line 311). -/
def load (store : Store) (a : LoadArgs) (df : DF) : IntegrityOut × List WriteOp :=
  let io := integrityPhase store a df
  (io, match io.result with
       | .error _ => []
       | .ok cleaned => batchWriteOps a.tableName a.upsert cleaned)

/-- The write calls of the per-record fallback (lines 336-346, reached when
`abort_on_error` is false and a batch failed unrecoverably): each surviving
record is freshly sanitized and written with `insert` — line 341 ignores
the call's `upsert` argument. -/
def fallbackTrace (a : LoadArgs) (data : List Row) : List WriteOp :=
  data.map (fun rec => .insertOp a.tableName [sanitizeRow rec])

/-- Modelled from the spec: the store-write semantics of §6 with
primary-key enforcement — `insert` raises when a written record's key is
already committed, `upsert` resolves the conflict and never raises on a
duplicate key. -/
def opFails (committed : List PyVal) (pk : String) : WriteOp → Bool
  | .insertOp _ recs => recs.any (fun r => decide (getCol r pk ∈ committed))
  | .upsertOp _ _ => false

/-- The key values a successful write call commits. -/
def opKeys (pk : String) (op : WriteOp) : List PyVal :=
  (opRecords op).map (fun r => getCol r pk)

/-- Run a sequence of write calls against the modelled store, stopping at
the first failing call (the fallback loop re-raises on the first error,
line 346): `true` iff every call succeeded. -/
def runOps (pk : String) : List PyVal → List WriteOp → Bool
  | _, [] => true
  | committed, op :: rest =>
    if opFails committed pk op then false
    else runOps pk (committed ++ opKeys pk op) rest

/-- Whether an `Except` is a success. -/
def isOkB : Except ε α → Bool
  | .ok _ => true
  | .error _ => false

/-! Spec-ordered integrity checker (for comparing step orders) -/

/-- Modelled from the spec: the error taxonomy of §7 as raised by the
spec-ordered Integrity Checker (`ValidationError` for in-batch duplicates,
`KeyConflict`, `ForeignKeyViolation`). -/
inductive SpecErr where
  | validationErr (vals : List PyVal)
  | keyConflict (vals : List PyVal)
  | fkViolation (vals : List PyVal)
  deriving DecidableEq

/-- Modelled from the spec: result of the spec-ordered checker. -/
structure SpecOut where
  result : Except SpecErr (List Row)
  audits : List AuditEntry
  deriving DecidableEq

/-- Modelled from the spec: how a failing FK / existing-PK check surfaces
in §7's taxonomy. -/
def specCheckErr : CheckErr → SpecErr
  | .existingKeys n => .keyConflict [.vInt n]
  | .missingStudents vals => .fkViolation vals
  | .missingMatriculas vals => .fkViolation vals

/-- Modelled from the spec: §4.2's Integrity Checker with the steps in the
spec's stated order — (1) required-column filter, (2) in-batch PK dedupe,
(3) existing-PK check as a hard stop, (4) FK checks — each operating on the
surviving set of the previous step, with `KeyConflict` and
`ForeignKeyViolation` failing the call rather than being swallowed.  The
individual step bodies are those of the source. -/
def loadSpecOrdered (store : Store) (a : LoadArgs) (df0 : DF) : SpecOut :=
  let (df1, aud1) := requiredStep a df0
  let pkPresent : Option String :=
    match a.pkColumn with
    | some pk => if pk ∈ df1.columns then some pk else none
    | none => none
  let step2 : Except SpecErr DF :=
    match pkPresent with
    | none => .ok df1
    | some pk =>
      let dups := dupValues df1.rows pk
      if dups.isEmpty then .ok df1
      else if a.dedupeDf then .ok { df1 with rows := dropDupKeepLast pk df1.rows }
      else .error (.validationErr dups)
  match step2 with
  | .error e => { result := .error e, audits := aud1.toList }
  | .ok df2 =>
    let step3 : Except SpecErr Unit :=
      match pkPresent with
      | none => .ok ()
      | some pk =>
        let existing := chunkedSelect store a.tableName pk (uniqueNonNull df2.rows pk)
        if existing.isEmpty then .ok () else .error (.keyConflict existing)
    match step3 with
    | .error e => { result := .error e, audits := aud1.toList }
    | .ok _ =>
      match matriculasFkBody store a df2 with
      | .error e => { result := .error (specCheckErr e), audits := aud1.toList }
      | .ok (df3, aud3) =>
        match pagosFkBody store a df3 with
        | .error e => { result := .error (specCheckErr e), audits := aud1.toList ++ aud3.toList }
        | .ok (df4, aud4) =>
          { result := .ok (df4.rows.map sanitizeRow),
            audits := aud1.toList ++ aud3.toList ++ aud4.toList }

/-! Concrete scenarios -/

/-- A store with no rows at all. -/
def emptyStore : Store := fun _ _ => []

/-- A store whose `estudiantes` table already holds the key `"A"`. -/
def storeWithA : Store := fun t c =>
  if t = "estudiantes" ∧ c = "codigo_estudiante" then [.vStr "A"] else []

/-- Arguments of `load("estudiantes", df, pk_column="codigo_estudiante", upsert=True)`. -/
def argsEstudiantes : LoadArgs :=
  { tableName := "estudiantes", pkColumn := some "codigo_estudiante", upsert := true }

/-- A one-row frame whose key `"A"` is already live in the store. -/
def dfConflict : DF :=
  { columns := ["codigo_estudiante"], rows := [[("codigo_estudiante", .vStr "A")]] }

/-- Arguments of `load("pagos", df, upsert=True)` (no PK given, as in the pipeline). -/
def argsPagos : LoadArgs := { tableName := "pagos", upsert := true }

/-- A `pagos` row referencing a matricula absent from the store. -/
def dfPagoMissingRef : DF :=
  { columns := ["codigo_matricula", "fecha_pago"],
    rows := [[("codigo_matricula", .vStr "M1"), ("fecha_pago", .vStr "2024-01-01")]] }

/-- Arguments of `load("matriculas", df, pk_column="codigo_matricula", upsert=True)`. -/
def argsMatriculas : LoadArgs :=
  { tableName := "matriculas", pkColumn := some "codigo_matricula", upsert := true }

/-- A `matriculas` row referencing a student absent from the store. -/
def dfMatriculaMissingRef : DF :=
  { columns := ["codigo_matricula", "codigo_estudiante"],
    rows := [[("codigo_matricula", .vStr "M1"), ("codigo_estudiante", .vStr "E1")]] }

/-- Arguments of `load("pagos", df, pk_column="id", dedupe_df=False)`. -/
def argsPagosNoDedupe : LoadArgs :=
  { tableName := "pagos", pkColumn := some "id", dedupeDf := false }

/-- Two rows colliding on the PK, of which the first would be removed by
the required-column filter (`fecha_pago` is null). -/
def dfDupWithNullRequired : DF :=
  { columns := ["id", "fecha_pago"],
    rows := [[("id", .vStr "K"), ("fecha_pago", .vNone)],
             [("id", .vStr "K"), ("fecha_pago", .vStr "2024-01-01")]] }

/-- Arguments of `load("cursos", df, pk_column="codigo_curso", dedupe_df=False)`. -/
def argsCursosNoDedupe : LoadArgs :=
  { tableName := "cursos", pkColumn := some "codigo_curso", dedupeDf := false }

/-- Two rows sharing the key `"C1"`. -/
def dfTwoSameKey : DF :=
  { columns := ["codigo_curso"],
    rows := [[("codigo_curso", .vStr "C1")], [("codigo_curso", .vStr "C1")]] }

/-- C8: the value sanitizer maps `NaN`, `+Infinity`, `-Infinity` and `None`
to null and every finite float to itself; but a Python boolean is an
instance of `int`, so the int branch at line 232-233 of `load.py` fires
before the (dead) bool branch at line 236-237 and every boolean is mapped
to the integer `int(b)`, not to itself. -/
theorem sanitize_scalar_values_eval :
    sanitizeValue .vNaN = .vNone ∧
    sanitizeValue .vInf = .vNone ∧
    sanitizeValue .vNegInf = .vNone ∧
    sanitizeValue .vNone = .vNone ∧
    (∀ q : ℚ, sanitizeValue (.vFloat q) = .vFloat q) ∧
    (∀ b : Bool, sanitizeValue (.vBool b) = .vInt (if b then 1 else 0)) ∧
    sanitizeValue (.vBool true) = .vInt 1 ∧
    sanitizeValue (.vBool true) ≠ .vBool true := by
  refine ⟨rfl, rfl, rfl, rfl, fun q => rfl, fun b => ?_, by decide, by decide⟩
  cases b <;> rfl

/-- C9 counterexample: for the two-element array `np.array([1, nan])` the
sanitizer returns `tolist()` of the array — `[1, nan]` — and not the
sequence of sanitized elements `[1, None]`, so a NaN element crosses the
boundary unconverted. -/
theorem sanitize_array_not_elementwise :
    sanitizeValue (.vArr [.sInt 1, .sNaN])
      ≠ .vArr ([.sInt 1, .sNaN].map (fun x => asScalar (sanitizeValue (.scalar x)))) := by
  decide

/-- C9 amended: for an array of length ≠ 1 the sanitizer returns the
ordered sequence of its elements *unchanged* (`ndarray.tolist()`, line
217-219), without sanitizing the elements; in particular a NaN element is
still present in the output.  (A one-element array is instead unwrapped by
the `pd.isna` test / `.item()` call and sanitized as a scalar.) -/
theorem sanitize_array_passthrough (l : List PyScalar) (h : l.length ≠ 1) :
    sanitizeValue (.vArr l) = .vArr l ∧
    (.sNaN ∈ l → .sNaN ∈ arrElems (sanitizeValue (.vArr l))) := by
  have hv : sanitizeValue (.vArr l) = .vArr l := by
    rcases l with _ | ⟨x, _ | ⟨y, t⟩⟩
    · rfl
    · exact absurd rfl h
    · rfl
  exact ⟨hv, fun hm => by rw [hv]; exact hm⟩

/-- Witness for `sanitize_array_passthrough` at the concrete array
`np.array([2, nan])`. -/
theorem sanitize_array_passthrough_witness :
    sanitizeValue (.vArr [.sInt 2, .sNaN]) = .vArr [.sInt 2, .sNaN] ∧
    .sNaN ∈ arrElems (sanitizeValue (.vArr [.sInt 2, .sNaN])) := by
  have h := sanitize_array_passthrough [.sInt 2, .sNaN] (by decide)
  exact ⟨h.1, h.2 (by decide)⟩

/-- C1: loading a record whose key is already live in the store does NOT
fail the call — the `ValueError` raised at line 83 is caught by the
`except Exception` of line 84 and logged as a warning, the frame survives
unchanged, and the batch loop still writes the conflicting row. -/
theorem load_proceeds_despite_existing_pk_conflict :
    (load storeWithA argsEstudiantes dfConflict).1.warnings = [.existingKeys 1] ∧
    (load storeWithA argsEstudiantes dfConflict).1.result
      = .ok [[("codigo_estudiante", .vStr "A")]] ∧
    (load storeWithA argsEstudiantes dfConflict).2
      = [.upsertOp "estudiantes" [[("codigo_estudiante", .vStr "A")]]] := by
  decide

/-- C2: with a drop-missing-references flag left false, a record whose
foreign-key reference is absent from the referenced table does NOT fail the
call — the `ValueError`s raised at lines 196 and 132 are caught by the
`except Exception` clauses of lines 197 and 133, logged as warnings, and
the records are still written (shown for both declared relations:
`pagos → matriculas` and `matriculas → estudiantes`). -/
theorem load_proceeds_despite_missing_fk_refs :
    (load emptyStore argsPagos dfPagoMissingRef).1.warnings
      = [.missingMatriculas [.vStr "M1"]] ∧
    isOkB (load emptyStore argsPagos dfPagoMissingRef).1.result = true ∧
    (load emptyStore argsPagos dfPagoMissingRef).2 ≠ [] ∧
    (load emptyStore argsMatriculas dfMatriculaMissingRef).1.warnings
      = [.missingStudents [.vStr "E1"]] ∧
    isOkB (load emptyStore argsMatriculas dfMatriculaMissingRef).1.result = true ∧
    (load emptyStore argsMatriculas dfMatriculaMissingRef).2 ≠ [] := by
  decide

/-! Lemmas on the duplicate handling -/

theorem uniqueFirst_ne_nil (x : PyVal) (xs : List PyVal) : uniqueFirst (x :: xs) ≠ [] := by
  simp [uniqueFirst, uniqueFirstAux]

theorem dupValues_ne_nil_of_not_nodup (rows : List Row) (pk : String)
    (h : ¬ (pkVals rows pk).Nodup) : dupValues rows pk ≠ [] := by
  rw [List.nodup_iff_count_le_one] at h
  push_neg at h
  obtain ⟨v, hv⟩ := h
  have hv2 : 2 ≤ (pkVals rows pk).count v := hv
  have hmem : v ∈ pkVals rows pk := List.count_pos_iff.mp (by omega)
  have hfil : v ∈ (pkVals rows pk).filter (fun w => 2 ≤ (pkVals rows pk).count w) :=
    List.mem_filter.mpr ⟨hmem, by simpa using hv2⟩
  unfold dupValues
  cases hmatch : (pkVals rows pk).filter (fun w => 2 ≤ (pkVals rows pk).count w) with
  | nil => rw [hmatch] at hfil; cases hfil
  | cons y ys => exact uniqueFirst_ne_nil y ys

theorem uniqueFirst_eq_nil_iff (l : List PyVal) : uniqueFirst l = [] ↔ l = [] := by
  cases l with
  | nil => simp [uniqueFirst, uniqueFirstAux]
  | cons x xs => simpa using uniqueFirst_ne_nil x xs

theorem nodup_of_dupValues_eq_nil (rows : List Row) (pk : String)
    (h : dupValues rows pk = []) : (pkVals rows pk).Nodup := by
  unfold dupValues at h
  rw [uniqueFirst_eq_nil_iff, List.filter_eq_nil_iff] at h
  rw [List.nodup_iff_count_le_one]
  intro v
  by_cases hmem : v ∈ pkVals rows pk
  · have := h v hmem
    simp only [decide_eq_true_eq] at this
    omega
  · simp [List.count_eq_zero_of_not_mem hmem]

theorem dropDupKeepLast_eq_self (pk : String) (rows : List Row)
    (h : (pkVals rows pk).Nodup) : dropDupKeepLast pk rows = rows := by
  induction rows with
  | nil => rfl
  | cons r rest ih =>
    have hcons : (pkVals (r :: rest) pk) = getCol r pk :: pkVals rest pk := rfl
    rw [hcons, List.nodup_cons] at h
    have hany : rest.any (fun r2 => getCol r2 pk == getCol r pk) = false := by
      rw [List.any_eq_false]
      intro r2 hr2
      simp only [beq_iff_eq]
      intro heq
      exact h.1 (heq ▸ List.mem_map_of_mem (fun r' => getCol r' pk) hr2)
    simp [dropDupKeepLast, hany, ih h.2]

/-- Shared shape of the line 50-58 branch: with a PK present, duplicates in
the frame and dedupe disabled, `load` stops at the uncaught `ValueError` of
line 58 before any later step runs. -/
theorem integrityPhase_dup_error (store : Store) (a : LoadArgs) (df : DF) (pk : String)
    (h1 : a.pkColumn = some pk) (h2 : pk ∈ df.columns) (h3 : a.dedupeDf = false)
    (h4 : dupValues df.rows pk ≠ []) :
    integrityPhase store a df =
      { result := .error (.duplicateKey (dupValues df.rows pk)),
        audits := [], warnings := [] } := by
  have h5 : (dupValues df.rows pk).isEmpty = false := by
    cases hm : dupValues df.rows pk with
    | nil => exact absurd hm h4
    | cons y ys => rfl
  simp only [integrityPhase, h1]
  rw [if_pos h2]
  simp [h5, h3]

/-- C3 counterexample: the integrity steps do not run in the spec's stated
order.  On a frame where a PK collision involves a row that the
required-column filter would remove, the source (which checks in-frame
duplicates first, lines 50-58, and filters required columns only at lines
136-154) fails with the duplicate-key error, while the spec-ordered checker
(required-column filter first) succeeds. -/
theorem load_step_order_differs_from_spec_order :
    isOkB (integrityPhase emptyStore argsPagosNoDedupe dfDupWithNullRequired).result = false ∧
    isOkB (loadSpecOrdered emptyStore argsPagosNoDedupe dfDupWithNullRequired).result = true := by
  decide

/-- C3 amended: the steps run in the source's order — in-frame PK dedupe
first (lines 50-58), then the existing-PK check, then the `matriculas` FK
check, then the required-column filter, then the `pagos` FK check.  In
particular the duplicate handling sees records that the required-column
filter would remove: with dedupe disabled, a PK collision fails the whole
call (for any store and any required-column policy) before any quarantine
CSV is written. -/
theorem dup_pk_check_precedes_required_filter
    (store : Store) (a : LoadArgs) (df : DF) (pk : String)
    (h1 : a.pkColumn = some pk) (h2 : pk ∈ df.columns)
    (h3 : a.dedupeDf = false) (h4 : ¬ (pkVals df.rows pk).Nodup) :
    (integrityPhase store a df).result = .error (.duplicateKey (dupValues df.rows pk)) ∧
    (integrityPhase store a df).audits = [] := by
  rw [integrityPhase_dup_error store a df pk h1 h2 h3 (dupValues_ne_nil_of_not_nodup _ _ h4)]
  exact ⟨rfl, rfl⟩

/-- Witness for `dup_pk_check_precedes_required_filter` at the concrete
frame of the counterexample: the call fails on the duplicate key `"K"` even
though the colliding first row has a null required column, and no
quarantine CSV is written. -/
theorem dup_pk_check_precedes_required_filter_witness :
    (integrityPhase emptyStore argsPagosNoDedupe dfDupWithNullRequired).result
      = .error (.duplicateKey [.vStr "K"]) ∧
    (integrityPhase emptyStore argsPagosNoDedupe dfDupWithNullRequired).audits = [] := by
  have h := dup_pk_check_precedes_required_filter emptyStore argsPagosNoDedupe
    dfDupWithNullRequired "id" rfl (by decide) rfl (by decide)
  have hd : dupValues dfDupWithNullRequired.rows "id" = [.vStr "K"] := by decide
  exact ⟨hd ▸ h.1, h.2⟩

/-- C5: with a PK configured and present, dedupe disabled and two records
sharing a key value, `load` raises the duplicate-key `ValueError` of line
58 listing every colliding key, and the batch loop is never reached — no
store write occurs. -/
theorem duplicate_pk_without_dedupe_fails_without_writes
    (store : Store) (a : LoadArgs) (df : DF) (pk : String)
    (h1 : a.pkColumn = some pk) (h2 : pk ∈ df.columns)
    (h3 : a.dedupeDf = false) (h4 : ¬ (pkVals df.rows pk).Nodup) :
    (load store a df).1.result = .error (.duplicateKey (dupValues df.rows pk)) ∧
    dupValues df.rows pk ≠ [] ∧
    (load store a df).2 = [] := by
  have hip := integrityPhase_dup_error store a df pk h1 h2 h3
    (dupValues_ne_nil_of_not_nodup _ _ h4)
  refine ⟨?_, dupValues_ne_nil_of_not_nodup _ _ h4, ?_⟩ <;> simp [load, hip]

/-! Lemmas on `drop_duplicates(keep="last")` and the dedupe path -/

theorem dropDupKeepLast_sublist (pk : String) (rows : List Row) :
    List.Sublist (dropDupKeepLast pk rows) rows := by
  induction rows with
  | nil => exact List.Sublist.slnil
  | cons r rest ih =>
    cases hany : rest.any (fun r2 => getCol r2 pk == getCol r pk) with
    | true =>
      rw [show dropDupKeepLast pk (r :: rest) = dropDupKeepLast pk rest from by
        simp [dropDupKeepLast, hany]]
      exact List.Sublist.cons r ih
    | false =>
      rw [show dropDupKeepLast pk (r :: rest) = r :: dropDupKeepLast pk rest from by
        simp [dropDupKeepLast, hany]]
      exact List.Sublist.cons₂ r ih

theorem dropDupKeepLast_filter_eq (pk : String) (v : PyVal) (rows : List Row) :
    (dropDupKeepLast pk rows).filter (fun r => getCol r pk == v)
      = ((rows.filter (fun r => getCol r pk == v)).getLast?).toList := by
  induction rows with
  | nil => rfl
  | cons r rest ih =>
    cases hany : rest.any (fun r2 => getCol r2 pk == getCol r pk) with
    | false =>
      rw [show dropDupKeepLast pk (r :: rest) = r :: dropDupKeepLast pk rest from by
        simp [dropDupKeepLast, hany]]
      by_cases hP : getCol r pk = v
      · have hrestfil : rest.filter (fun r2 => getCol r2 pk == v) = [] := by
          rw [List.filter_eq_nil_iff]
          intro r2 hr2
          rw [List.any_eq_false] at hany
          have h2 := hany r2 hr2
          simp only [beq_iff_eq] at h2 ⊢
          rw [hP] at h2
          exact h2
        simp [List.filter_cons, hP, ih, hrestfil]
      · simp [List.filter_cons, hP, ih]
    | true =>
      rw [show dropDupKeepLast pk (r :: rest) = dropDupKeepLast pk rest from by
        simp [dropDupKeepLast, hany]]
      rw [ih]
      by_cases hP : getCol r pk = v
      · obtain ⟨r2, hr2, hr2eq⟩ : ∃ r2 ∈ rest, getCol r2 pk = getCol r pk := by
          rw [List.any_eq_true] at hany
          obtain ⟨r2, hr2, h2⟩ := hany
          exact ⟨r2, hr2, by simpa using h2⟩
        have hmem : r2 ∈ rest.filter (fun r3 => getCol r3 pk == v) :=
          List.mem_filter.mpr ⟨hr2, by simp [hr2eq, hP]⟩
        have hPb : (getCol r pk == v) = true := by simp [hP]
        rw [List.filter_cons, hPb]
        simp only [if_true]
        cases hfil : rest.filter (fun r3 => getCol r3 pk == v) with
        | nil => rw [hfil] at hmem; cases hmem
        | cons y ys => rw [List.getLast?_cons_cons]
      · have hPb : (getCol r pk == v) = false := by simp [hP]
        rw [List.filter_cons, hPb]
        simp

theorem existingPkBody_ok (store : Store) (a : LoadArgs) (pk : String) (df df2 : DF)
    (aud : Option AuditEntry) (h : existingPkBody store a pk df = .ok (df2, aud)) :
    df2 = df := by
  simp only [existingPkBody] at h
  split at h
  · simp only [Except.ok.injEq, Prod.mk.injEq] at h
    exact h.1.symm
  · simp at h

theorem pkChecksAfterDup_fst_of_not_matriculas (store : Store) (a : LoadArgs)
    (pk : String) (df : DF) (hm : a.tableName ≠ "matriculas") :
    (pkChecksAfterDup store a pk df).1 = df := by
  have hM : ∀ d : DF, matriculasFkBody store a d = .ok (d, none) := fun d => by
    unfold matriculasFkBody
    exact if_neg (fun hand => hm hand.1)
  unfold pkChecksAfterDup
  cases hE : existingPkBody store a pk df with
  | ok p =>
    obtain ⟨df2, aud⟩ := p
    have hdf2 := existingPkBody_ok store a pk df df2 aud hE
    subst hdf2
    simp [tryCheck, hM df2]
  | error e =>
    simp [tryCheck, hM df]

theorem commonTail_result_plain (store : Store) (a : LoadArgs) (df : DF)
    (auds : List AuditEntry) (warns : List CheckErr)
    (hreq : (match a.requiredColumns with
             | some cs => cs
             | none => (REQUIRED_COLUMNS_BY_TABLE.lookup a.tableName).getD []) = [])
    (hp : a.tableName ≠ "pagos") :
    (commonTail store a df auds warns).result = .ok (df.rows.map sanitizeRow) := by
  have hR : requiredStep a df = (df, none) := by
    unfold requiredStep
    rw [hreq]
    simp
  have hP : pagosFkBody store a df = .ok (df, none) := by
    unfold pagosFkBody
    exact if_neg (fun hand => hp hand.1)
  simp [commonTail, hR, hP, tryCheck]

theorem integrityPhase_result_estudiantes (store : Store) (pk : String) (df : DF)
    (h : pk ∈ df.columns) :
    (integrityPhase store { tableName := "estudiantes", pkColumn := some pk } df).result
      = .ok ((dropDupKeepLast pk df.rows).map sanitizeRow) := by
  have hm : ({ tableName := "estudiantes", pkColumn := some pk } : LoadArgs).tableName
      ≠ "matriculas" := by simp
  have hp : ({ tableName := "estudiantes", pkColumn := some pk } : LoadArgs).tableName
      ≠ "pagos" := by simp
  have hreq : (match ({ tableName := "estudiantes", pkColumn := some pk }
        : LoadArgs).requiredColumns with
      | some cs => cs
      | none => (REQUIRED_COLUMNS_BY_TABLE.lookup
          ({ tableName := "estudiantes", pkColumn := some pk } : LoadArgs).tableName).getD [])
      = [] := by simp [REQUIRED_COLUMNS_BY_TABLE, List.lookup]
  simp only [integrityPhase]
  rw [if_pos h]
  by_cases hd : (dupValues df.rows pk).isEmpty = true
  · rw [if_pos hd]
    have hnil : dupValues df.rows pk = [] := List.isEmpty_iff.mp hd
    have hid : dropDupKeepLast pk df.rows = df.rows :=
      dropDupKeepLast_eq_self pk df.rows (nodup_of_dupValues_eq_nil df.rows pk hnil)
    rcases hT : pkChecksAfterDup store { tableName := "estudiantes", pkColumn := some pk }
        pk df with ⟨df3, auds3, warns3⟩
    have hfst : df3 = df := by
      have := pkChecksAfterDup_fst_of_not_matriculas store
        { tableName := "estudiantes", pkColumn := some pk } pk df hm
      rw [hT] at this
      exact this
    subst hfst
    simp only [hT]
    rw [commonTail_result_plain store _ df3 auds3 warns3 hreq hp, hid]
  · rw [if_neg hd]
    rw [if_pos trivial]
    rcases hT : pkChecksAfterDup store { tableName := "estudiantes", pkColumn := some pk }
        pk { columns := df.columns, rows := dropDupKeepLast pk df.rows }
      with ⟨df3, auds3, warns3⟩
    have hfst : df3 = { columns := df.columns, rows := dropDupKeepLast pk df.rows } := by
      have := pkChecksAfterDup_fst_of_not_matriculas store
        { tableName := "estudiantes", pkColumn := some pk } pk
        { columns := df.columns, rows := dropDupKeepLast pk df.rows } hm
      rw [hT] at this
      exact this
    subst hfst
    simp only [hT]
    rw [commonTail_result_plain store _ _ auds3 warns3 hreq hp]

/-- C4: with a PK column configured and dedupe enabled, the record set the
batch writer receives keeps exactly one record per distinct PK value — for
every value `v`, what survives of the rows carrying `v` is exactly the last
such row in input order — and the survivors appear unchanged, in input
order (a sublist of the input).  The third conjunct connects this to the
full call: for a table without FK relations or required columns, the
integrity phase hands the batch loop exactly the sanitized
`drop_duplicates(keep="last")` image of the frame. -/
theorem dedupe_keeps_last_occurrence (pk : String) (rows : List Row) :
    List.Sublist (dropDupKeepLast pk rows) rows ∧
    (∀ v : PyVal, (dropDupKeepLast pk rows).filter (fun r => getCol r pk == v)
        = ((rows.filter (fun r => getCol r pk == v)).getLast?).toList) ∧
    ∀ (store : Store) (df : DF), pk ∈ df.columns →
      (integrityPhase store { tableName := "estudiantes", pkColumn := some pk } df).result
        = .ok ((dropDupKeepLast pk df.rows).map sanitizeRow) :=
  ⟨dropDupKeepLast_sublist pk rows,
   fun v => dropDupKeepLast_filter_eq pk v rows,
   fun store df h => integrityPhase_result_estudiantes store pk df h⟩

/-- Witness for `dedupe_keeps_last_occurrence`: two rows keyed `"A"` and
one keyed `"B"`; the survivor set is the last `"A"` row and the `"B"` row,
and the full call writes exactly their sanitized forms. -/
theorem dedupe_keeps_last_occurrence_witness :
    (dropDupKeepLast "k"
        [[("k", PyVal.vStr "A"), ("x", PyVal.vInt 1)],
         [("k", PyVal.vStr "A"), ("x", PyVal.vInt 2)],
         [("k", PyVal.vStr "B")]]
      = [[("k", PyVal.vStr "A"), ("x", PyVal.vInt 2)], [("k", PyVal.vStr "B")]]) ∧
    (integrityPhase emptyStore { tableName := "estudiantes", pkColumn := some "k" }
        { columns := ["k", "x"],
          rows := [[("k", PyVal.vStr "A"), ("x", PyVal.vInt 1)],
                   [("k", PyVal.vStr "A"), ("x", PyVal.vInt 2)],
                   [("k", PyVal.vStr "B")]] }).result
      = .ok [[("k", PyVal.vStr "A"), ("x", PyVal.vInt 2)], [("k", PyVal.vStr "B")]] := by
  constructor
  · decide
  · have h := (dedupe_keeps_last_occurrence "k" []).2.2 emptyStore
      { columns := ["k", "x"],
        rows := [[("k", PyVal.vStr "A"), ("x", PyVal.vInt 1)],
                 [("k", PyVal.vStr "A"), ("x", PyVal.vInt 2)],
                 [("k", PyVal.vStr "B")]] } (by decide)
    rw [h]
    decide

/-- Witness for `duplicate_pk_without_dedupe_fails_without_writes` at two
rows sharing the key `"C1"`. -/
theorem duplicate_pk_without_dedupe_fails_without_writes_witness :
    (load emptyStore argsCursosNoDedupe dfTwoSameKey).1.result
      = .error (.duplicateKey [.vStr "C1"]) ∧
    (load emptyStore argsCursosNoDedupe dfTwoSameKey).2 = [] := by
  have h := duplicate_pk_without_dedupe_fails_without_writes emptyStore argsCursosNoDedupe
    dfTwoSameKey "codigo_curso" rfl (by decide) rfl (by decide)
  have hd : dupValues dfTwoSameKey.rows "codigo_curso" = [.vStr "C1"] := by decide
  exact ⟨hd ▸ h.1, h.2.2⟩

/-! Lemmas on the batch slicing -/

theorem sliceChunksAux_fuel_eq (sz : ℕ) :
    ∀ (f1 f2 : ℕ) (l : List α), l.length ≤ f1 → l.length ≤ f2 →
      sliceChunksAux sz f1 l = sliceChunksAux sz f2 l := by
  intro f1
  induction f1 with
  | zero =>
    intro f2 l h1 h2
    have hl : l = [] := List.eq_nil_of_length_eq_zero (Nat.le_zero.mp h1)
    subst hl
    cases f2 <;> rfl
  | succ f ih =>
    intro f2 l h1 h2
    cases l with
    | nil => cases f2 <;> rfl
    | cons x xs =>
      cases f2 with
      | zero => simp at h2
      | succ g =>
        show ((x :: xs).take sz) :: sliceChunksAux sz f (xs.drop (sz - 1))
            = ((x :: xs).take sz) :: sliceChunksAux sz g (xs.drop (sz - 1))
        have hd : (xs.drop (sz - 1)).length ≤ xs.length := by
          rw [List.length_drop]
          exact Nat.sub_le _ _
        have hxs1 : xs.length ≤ f := by simpa using h1
        have hxs2 : xs.length ≤ g := by simpa using h2
        rw [ih g (xs.drop (sz - 1)) (le_trans hd hxs1) (le_trans hd hxs2)]

theorem sliceChunks_cons (sz : ℕ) (x : α) (xs : List α) :
    sliceChunks sz (x :: xs) = ((x :: xs).take sz) :: sliceChunks sz (xs.drop (sz - 1)) := by
  show sliceChunksAux sz (xs.length + 1) (x :: xs) = _
  show ((x :: xs).take sz) :: sliceChunksAux sz xs.length (xs.drop (sz - 1)) = _
  have hd : (xs.drop (sz - 1)).length ≤ xs.length := by
    rw [List.length_drop]
    exact Nat.sub_le _ _
  rw [sliceChunksAux_fuel_eq sz xs.length (xs.drop (sz - 1)).length (xs.drop (sz - 1)) hd
    (le_refl _)]
  rfl

theorem sliceChunks_cons_100 (x : α) (xs : List α) :
    sliceChunks 100 (x :: xs) = ((x :: xs).take 100) :: sliceChunks 100 (xs.drop 99) := by
  have h := sliceChunks_cons 100 x xs
  norm_num at h
  exact h

theorem sliceChunks_flatten (sz : ℕ) (hsz : 1 ≤ sz) (l : List α) :
    (sliceChunks sz l).flatten = l := by
  cases l with
  | nil => rfl
  | cons x xs =>
    rw [sliceChunks_cons, List.flatten_cons, sliceChunks_flatten sz hsz (xs.drop (sz - 1))]
    obtain ⟨m, rfl⟩ : ∃ m, sz = m + 1 := ⟨sz - 1, by omega⟩
    rw [List.take_succ_cons]
    have hm : m + 1 - 1 = m := by omega
    rw [hm, List.cons_append, List.take_append_drop]
termination_by l.length
decreasing_by simp [List.length_drop]; omega

theorem sliceChunks_length_le (sz : ℕ) (l : List α) :
    ∀ b ∈ sliceChunks sz l, b.length ≤ sz := by
  cases l with
  | nil => intro b hb; simp [sliceChunks, sliceChunksAux] at hb
  | cons x xs =>
    rw [sliceChunks_cons]
    intro b hb
    rcases List.mem_cons.mp hb with rfl | hb2
    · rw [List.length_take]
      exact Nat.min_le_left _ _
    · exact sliceChunks_length_le sz (xs.drop (sz - 1)) b hb2
termination_by l.length
decreasing_by simp [List.length_drop]; omega

theorem sliceChunks_count_100 (l : List α) :
    (sliceChunks 100 l).length = (l.length + 99) / 100 := by
  cases l with
  | nil => norm_num [sliceChunks, sliceChunksAux]
  | cons x xs =>
    rw [sliceChunks_cons_100, List.length_cons, sliceChunks_count_100 (xs.drop 99),
      List.length_drop, List.length_cons]
    rcases Nat.lt_or_ge xs.length 99 with hlt | hge
    · have e1 : xs.length - 99 = 0 := by omega
      rw [e1]
      have e2 : (99 : ℕ) / 100 = 0 := by norm_num
      have e3 : (xs.length + 1 + 99) / 100 = 1 := by
        apply Nat.div_eq_of_lt_le <;> omega
      rw [e2, e3]
    · have e1 : xs.length - 99 + 99 = xs.length := by omega
      have e2 : xs.length + 1 + 99 = xs.length + 100 := by omega
      rw [e1, e2, Nat.add_div_right _ (by norm_num)]
termination_by l.length
decreasing_by simp [List.length_drop]; omega

theorem sliceChunks_sizes_250 (l : List α) (h : l.length = 250) :
    (sliceChunks 100 l).map List.length = [100, 100, 50] := by
  cases l with
  | nil => simp at h
  | cons x xs =>
    have hx : xs.length = 249 := by simpa using h
    rw [sliceChunks_cons_100]
    have h2 : (xs.drop 99).length = 150 := by rw [List.length_drop]; omega
    cases hd : xs.drop 99 with
    | nil => rw [hd] at h2; simp at h2
    | cons y ys =>
      have hy : ys.length = 149 := by
        have := h2
        rw [hd] at this
        simpa using this
      rw [sliceChunks_cons_100]
      have h3 : (ys.drop 99).length = 50 := by rw [List.length_drop]; omega
      cases he : ys.drop 99 with
      | nil => rw [he] at h3; simp at h3
      | cons z zs =>
        have hz : zs.length = 49 := by
          have := h3
          rw [he] at this
          simpa using this
        rw [sliceChunks_cons_100]
        have h4 : zs.drop 99 = [] :=
          List.eq_nil_of_length_eq_zero (by rw [List.length_drop]; omega)
        rw [h4]
        show [((x :: xs).take 100).length, ((y :: ys).take 100).length,
              ((z :: zs).take 100).length] = [100, 100, 50]
        simp [List.length_take]
        omega

/-- C6: the batch writer slices the sanitized record set into contiguous,
order-preserving batches of at most `BATCH_SIZE = 100` records whose
concatenation is the input, making `ceil(N/100)` write calls; for `N = 250`
the write calls carry exactly [100, 100, 50] records, in that order. -/
theorem batching_partitions_into_chunks_of_100 (l : List Row) :
    (sliceChunks BATCH_SIZE l).flatten = l ∧
    (∀ b ∈ sliceChunks BATCH_SIZE l, b.length ≤ BATCH_SIZE) ∧
    (sliceChunks BATCH_SIZE l).length = (l.length + 99) / 100 ∧
    (l.length = 250 → (sliceChunks BATCH_SIZE l).map List.length = [100, 100, 50]) ∧
    ∀ (t : String) (up : Bool),
      (batchWriteOps t up l).map (fun op => (opRecords op).length)
        = (sliceChunks BATCH_SIZE l).map List.length := by
  refine ⟨sliceChunks_flatten BATCH_SIZE (by norm_num [BATCH_SIZE]) l,
          sliceChunks_length_le BATCH_SIZE l,
          sliceChunks_count_100 l,
          fun h => sliceChunks_sizes_250 l h,
          fun t up => ?_⟩
  cases up <;> simp [batchWriteOps, List.map_map, opRecords, Function.comp]

/-- Witness for `batching_partitions_into_chunks_of_100` at `N = 250`. -/
theorem batching_partitions_witness :
    (sliceChunks BATCH_SIZE (List.replicate 250 ([] : Row))).map List.length
      = [100, 100, 50] :=
  (batching_partitions_into_chunks_of_100 (List.replicate 250 [])).2.2.2.1
    (List.length_replicate 250 [])

/-! Lemmas on the retry loop -/

theorem retryGo_cons (exec : ℕ → AttemptOutcome) (a : ℕ) (rest : List ℕ) :
    retryGo exec (a :: rest) =
      match exec a with
      | .success => { ok := true, sleeps := [], attempts := 1, raised := none }
      | .failure msg =>
        if isTransientError msg then
          if rest.isEmpty then { ok := false, sleeps := [], attempts := 1, raised := some msg }
          else
            let r := retryGo exec rest
            { ok := r.ok, sleeps := RETRY_DELAY_BASE ^ (a + 1) :: r.sleeps,
              attempts := r.attempts + 1, raised := r.raised }
        else { ok := false, sleeps := [], attempts := 1, raised := some msg } := rfl

theorem retryGo_cons_success (exec : ℕ → AttemptOutcome) (a : ℕ) (rest : List ℕ)
    (hE : exec a = .success) :
    retryGo exec (a :: rest) = { ok := true, sleeps := [], attempts := 1, raised := none } := by
  rw [retryGo_cons, hE]

theorem retryGo_cons_failure (exec : ℕ → AttemptOutcome) (a : ℕ) (rest : List ℕ)
    (msg : String) (hE : exec a = .failure msg) :
    retryGo exec (a :: rest) =
      if isTransientError msg then
        if rest.isEmpty then { ok := false, sleeps := [], attempts := 1, raised := some msg }
        else
          { ok := (retryGo exec rest).ok,
            sleeps := RETRY_DELAY_BASE ^ (a + 1) :: (retryGo exec rest).sleeps,
            attempts := (retryGo exec rest).attempts + 1,
            raised := (retryGo exec rest).raised }
      else { ok := false, sleeps := [], attempts := 1, raised := some msg } := by
  rw [retryGo_cons, hE]

theorem retryGo_attempts_le (exec : ℕ → AttemptOutcome) (L : List ℕ) :
    (retryGo exec L).attempts ≤ L.length := by
  induction L with
  | nil => simp [retryGo]
  | cons a rest ih =>
    cases hE : exec a with
    | success =>
      simp only [retryGo, hE]
      show (1 : ℕ) ≤ rest.length + 1
      omega
    | failure msg =>
      simp only [retryGo, hE]
      by_cases ht : isTransientError msg = true
      · rw [if_pos ht]
        by_cases he : rest.isEmpty = true
        · rw [if_pos he]
          show (1 : ℕ) ≤ rest.length + 1
          omega
        · rw [if_neg he]
          show (retryGo exec rest).attempts + 1 ≤ rest.length + 1
          exact Nat.succ_le_succ ih
      · rw [if_neg ht]
        show (1 : ℕ) ≤ rest.length + 1
        omega

/-- C7: when the store raises a transient error on the first two attempts
of a batch and succeeds on the third, `_execute_with_retry` ultimately
succeeds having made exactly 3 attempts with exactly two backoff sleeps of
`RETRY_DELAY_BASE ** (attempt+1)` = 2 and then 4 seconds before the third
attempt; and for every behaviour of the store at most `MAX_RETRIES = 3`
attempts are made. -/
theorem transient_retry_succeeds_with_two_backoffs (exec : ℕ → AttemptOutcome)
    (m0 m1 : String)
    (h0 : exec 0 = .failure m0) (ht0 : isTransientError m0 = true)
    (h1 : exec 1 = .failure m1) (ht1 : isTransientError m1 = true)
    (h2 : exec 2 = .success) :
    executeWithRetry exec = { ok := true, sleeps := [2, 4], attempts := 3, raised := none } ∧
    ∀ g : ℕ → AttemptOutcome, (executeWithRetry g).attempts ≤ MAX_RETRIES := by
  constructor
  · show retryGo exec (List.range MAX_RETRIES) = _
    have hrange : List.range MAX_RETRIES = [0, 1, 2] := by decide
    rw [hrange]
    have e1 : retryGo exec [2] = { ok := true, sleeps := [], attempts := 1, raised := none } :=
      retryGo_cons_success exec 2 [] h2
    have e2 : retryGo exec [1, 2]
        = { ok := true, sleeps := [4], attempts := 2, raised := none } := by
      rw [retryGo_cons_failure exec 1 [2] m1 h1, if_pos ht1,
        if_neg (by simp : ¬([2] : List ℕ).isEmpty = true), e1]
      norm_num [RETRY_DELAY_BASE]
    have e3 : retryGo exec [0, 1, 2]
        = { ok := true, sleeps := [2, 4], attempts := 3, raised := none } := by
      rw [retryGo_cons_failure exec 0 [1, 2] m0 h0, if_pos ht0,
        if_neg (by simp : ¬([1, 2] : List ℕ).isEmpty = true), e2]
      norm_num [RETRY_DELAY_BASE]
    exact e3
  · intro g
    calc (executeWithRetry g).attempts ≤ (List.range MAX_RETRIES).length :=
          retryGo_attempts_le g (List.range MAX_RETRIES)
      _ ≤ MAX_RETRIES := by simp

/-- Witness for `transient_retry_succeeds_with_two_backoffs`: a store that
times out twice and then succeeds. -/
theorem transient_retry_witness :
    executeWithRetry (fun n => if n < 2 then .failure "timeout" else .success)
      = { ok := true, sleeps := [2, 4], attempts := 3, raised := none } :=
  (transient_retry_succeeds_with_two_backoffs
    (fun n => if n < 2 then .failure "timeout" else .success)
    "timeout" "timeout" (by decide) (by decide) (by decide) (by decide) (by decide)).1

/-! Lemmas on the per-record fallback -/

theorem runOps_fallback_false (pk : String) (a : LoadArgs) (committed : List PyVal)
    (data : List Row) (hconf : ∃ r ∈ data, getCol (sanitizeRow r) pk ∈ committed) :
    runOps pk committed (fallbackTrace a data) = false := by
  induction data generalizing committed with
  | nil =>
    rcases hconf with ⟨r, hr, _⟩
    cases hr
  | cons r0 rest ih =>
    cases hfail : opFails committed pk (.insertOp a.tableName [sanitizeRow r0]) with
    | true => simp [fallbackTrace, runOps, hfail]
    | false =>
      simp only [fallbackTrace, List.map_cons, runOps, hfail, Bool.false_eq_true, if_false]
      rcases hconf with ⟨r, hr, hcommitted⟩
      rcases List.mem_cons.mp hr with rfl | hrest
      · exfalso
        simp [opFails] at hfail
        exact hfail hcommitted
      · exact ih (committed ++ opKeys pk (.insertOp a.tableName [sanitizeRow r0]))
          ⟨r, hrest, List.mem_append_left _ hcommitted⟩

theorem runOps_all_upsert (pk : String) (ops : List WriteOp) :
    ∀ committed : List PyVal, (∀ op ∈ ops, isInsertOp op = false) →
      runOps pk committed ops = true := by
  induction ops with
  | nil => intro committed _; rfl
  | cons op rest ih =>
    intro committed h
    have hop := h op (List.mem_cons_self op rest)
    have hfail : opFails committed pk op = false := by
      cases op with
      | insertOp t recs => simp [isInsertOp] at hop
      | upsertOp t recs => rfl
    simp only [runOps, hfail, Bool.false_eq_true, if_false]
    exact ih _ (fun o ho => h o (List.mem_cons_of_mem _ ho))

/-- C10: the per-record fallback (lines 336-346) issues `insert` calls
only, ignoring the call's `upsert=True` mode; against a store whose
`insert` rejects already-committed keys while `upsert` resolves them, the
fallback therefore fails on any record whose key is already committed
(e.g. by an earlier successful batch of the same call), although a batched
upsert of the very same records always succeeds. -/
theorem fallback_replay_inserts_and_fails_on_committed_key
    (a : LoadArgs) (committed : List PyVal) (pk : String) (data : List Row)
    (_hup : a.upsert = true)
    (hconf : ∃ r ∈ data, getCol (sanitizeRow r) pk ∈ committed) :
    (∀ op ∈ fallbackTrace a data, isInsertOp op = true) ∧
    runOps pk committed (fallbackTrace a data) = false ∧
    ∀ rows : List Row, runOps pk committed (batchWriteOps a.tableName true rows) = true := by
  refine ⟨?_, runOps_fallback_false pk a committed data hconf, ?_⟩
  · intro op hop
    simp only [fallbackTrace, List.mem_map] at hop
    obtain ⟨r, _, rfl⟩ := hop
    rfl
  · intro rows
    apply runOps_all_upsert
    intro op hop
    simp only [batchWriteOps, List.mem_map] at hop
    obtain ⟨b, _, rfl⟩ := hop
    rfl

/-- Witness for `fallback_replay_inserts_and_fails_on_committed_key`: one
record keyed `"K"`, already committed. -/
theorem fallback_replay_witness :
    runOps "id" [PyVal.vStr "K"]
      (fallbackTrace { tableName := "t", upsert := true } [[("id", PyVal.vStr "K")]])
      = false ∧
    ∀ op ∈ fallbackTrace { tableName := "t", upsert := true } [[("id", PyVal.vStr "K")]],
      isInsertOp op = true := by
  have h := fallback_replay_inserts_and_fails_on_committed_key
    { tableName := "t", upsert := true } [PyVal.vStr "K"] "id" [[("id", PyVal.vStr "K")]]
    rfl ⟨[("id", PyVal.vStr "K")], by decide, by decide⟩
  exact ⟨h.2.1, h.1⟩

end EtlLoad
